import Mathlib

/-!
Shallow embedding of the Excel-File-Processing-App backend
(`src/backend/ExcelProcessorAPI/Services/LegacyJsonConverter.cs` together with
the entity model in `Models` and the DTOs in `Models/DTOs`).

Modelling conventions:
* C# machine integers (`int`, `long`) are modelled with `Nat`/`Int`; no
  arithmetic in the modelled code paths can overflow for realistic payloads,
  and no modular wrap-around is exercised by any claim.
* JSON numbers (`double`) are carried as `Rat`; the code never performs
  floating-point arithmetic on them (values are only passed through or
  defaulted to 0), so exact rationals are a faithful carrier.
* C# exceptions are modelled with `Option`/`Except`: `none` / `.error`
  marks a thrown exception.
* `Guid` identifiers are modelled as `Nat` drawn from a freshness counter in
  the store; only identity (equality) of ids is ever used.
* `DateTime.UtcNow` is an explicit `Int` parameter (`now`).
-/

namespace ExcelProc

/-- JSON-like trees: the common model for Newtonsoft `JToken` values and
`System.Text.Json` `JsonElement` values.  Object properties keep their
insertion order, exactly as both libraries do. -/
inductive Json where
  | jstr (s : String)
  | jint (n : Int)
  | jfloat (q : Rat)
  | jbool (b : Bool)
  | jnull
  | jobj (props : List (String × Json))
  | jarr (elems : List Json)
deriving Repr

mutual

/-- Structural equality test for `Json` (model of `JToken.DeepEquals`-style
comparison; used only to state map-equality of payloads). -/
def beqJson : Json → Json → Bool
  | .jstr a, .jstr b => a == b
  | .jint a, .jint b => a == b
  | .jfloat a, .jfloat b => decide (a = b)
  | .jbool a, .jbool b => a == b
  | .jnull, .jnull => true
  | .jobj a, .jobj b => beqProps a b
  | .jarr a, .jarr b => beqElems a b
  | _, _ => false

/-- Pointwise equality of ordered property lists. -/
def beqProps : List (String × Json) → List (String × Json) → Bool
  | [], [] => true
  | p :: ps, q :: qs => p.1 == q.1 && beqJson p.2 q.2 && beqProps ps qs
  | _, _ => false

/-- Pointwise equality of element lists. -/
def beqElems : List Json → List Json → Bool
  | [], [] => true
  | e :: es, f :: fs => beqJson e f && beqElems es fs
  | _, _ => false

end

instance : BEq Json := ⟨beqJson⟩

/-- Decoded row values: the C# `object` results produced by the converters.
`vnull` is the C# `null` reference. -/
inductive Value where
  | vstr (s : String)
  | vint (n : Int)
  | vfloat (q : Rat)
  | vbool (b : Bool)
  | vnull
deriving DecidableEq, Repr

/-- Model of the Newtonsoft `JObject` indexer `token["name"]`: the property
with the given name, or C# `null` when absent. -/
def getProp (props : List (String × Json)) (name : String) : Option Json :=
  (props.find? (fun p => p.1 == name)).map (fun p => p.2)

/-- Model of `JToken.Value<int>()` on the `ValueKind` property.  The data this
code reads stores `ValueKind` as the integer serialization of the
`JsonValueKind` enum, so only integer tokens convert; on any other token the
call throws (`none`). -/
def jtokenValueInt : Json → Option Int
  | .jint n => some n
  | _ => none

/-- Model of `JToken.Value<string>()`.  Result `some (some s)` is the string,
`some none` is a C# `null` string, `none` is a thrown conversion error.
Integer and boolean tokens convert via their invariant-culture rendering. -/
def jtokenValueString : Json → Option (Option String)
  | .jstr s => some (some s)
  | .jnull => some none
  | .jint n => some (some (toString n))
  | .jbool b => some (some (if b then "True" else "False"))
  | _ => none

/-- Model of `JToken.Value<double>()`.  Numeric tokens pass their value
through exactly; any other token throws (`none`). -/
def jtokenValueDouble : Json → Option Rat
  | .jint n => some (n : Rat)
  | .jfloat q => some q
  | _ => none

/-- UTF-8 encoding of a Unicode scalar value, as byte values. -/
def utf8Bytes (c : Nat) : List Nat :=
  if c < 0x80 then [c]
  else if c < 0x800 then [0xC0 + c / 0x40, 0x80 + c % 0x40]
  else if c < 0x10000 then
    [0xE0 + c / 0x1000, 0x80 + c / 0x40 % 0x40, 0x80 + c % 0x40]
  else
    [0xF0 + c / 0x40000, 0x80 + c / 0x1000 % 0x40, 0x80 + c / 0x40 % 0x40,
     0x80 + c % 0x40]

/-- UTF-8 bytes of a string. -/
def strBytes (s : String) : List Nat :=
  s.data.flatMap (fun c => utf8Bytes c.toNat)

/-- JSON rendering of one string, with the two escapes that can occur in this
pipeline (quote and backslash); byte 34 is the quote, byte 92 the backslash. -/
def serStr (s : String) : List Nat :=
  [34] ++ s.data.flatMap (fun c =>
    if c.toNat == 34 || c.toNat == 92 then [92, c.toNat] else utf8Bytes c.toNat) ++ [34]

mutual

/-- Model of Newtonsoft `JsonConvert.SerializeObject(_, Formatting.None)` on a
`Json` tree, producing the UTF-8 bytes of the compact JSON text.  Object
properties are emitted in insertion order, exactly as Newtonsoft serializes a
`Dictionary`.  Byte 123 is an opening brace, 125 a closing brace, 91/93 the
square brackets, 44 the comma, 58 the colon, 45 the minus sign, 47 a slash.
The rendering of `jfloat` rationals with a non-unit denominator is a canonical
placeholder (numerator, slash, denominator); no claim depends on it. -/
def serializeJson : Json → List Nat
  | .jstr s => serStr s
  | .jint n => strBytes (toString n)
  | .jfloat q =>
      if q.den == 1 then strBytes (toString q.num)
      else strBytes (toString q.num) ++ [47] ++ strBytes (toString q.den)
  | .jbool b => if b then strBytes "true" else strBytes "false"
  | .jnull => strBytes "null"
  | .jobj props => [123] ++ serProps props ++ [125]
  | .jarr elems => [91] ++ serElems elems ++ [93]

/-- Comma-separated serialization of object properties. -/
def serProps : List (String × Json) → List Nat
  | [] => []
  | [p] => serStr p.1 ++ [58] ++ serializeJson p.2
  | p :: rest => serStr p.1 ++ [58] ++ serializeJson p.2 ++ [44] ++ serProps rest

/-- Comma-separated serialization of array elements. -/
def serElems : List Json → List Nat
  | [] => []
  | [e] => serializeJson e
  | e :: rest => serializeJson e ++ [44] ++ serElems rest

end

/-- Model of `JToken.ToString()` / `JsonElement.ToString()`: the JSON text of
the token.  Rendered here from the serialization bytes (ASCII payloads; no
claim exercises non-ASCII content on this path). -/
def jsonToDisplayString (j : Json) : String :=
  String.mk ((serializeJson j).map Char.ofNat)

/-- Model of `LegacyDataConverter.ConvertLegacyValue` (LegacyJsonConverter.cs lines
45-91).  `none` models a thrown exception (caught by the caller).  A tagged
legacy object is recognised by `token.Type == JTokenType.Object` together
with `token["ValueKind"] != null`. -/
def ConvertLegacyValue (token : Json) : Option Value :=
  match token with
  | .jobj props =>
    match getProp props "ValueKind" with
    | some vk =>
      match jtokenValueInt vk with
      | none => none
      | some valueKind =>
        if valueKind = 3 then
          -- String: but the actual string value may be missing in legacy data
          match getProp props "Value" with
          | none => some (.vstr "N/A")
          | some v =>
            match jtokenValueString v with
            | none => none
            | some none => some (.vstr "N/A")
            | some (some s) => some (if s = "" then .vstr "N/A" else .vstr s)
        else if valueKind = 4 then
          -- Number
          match getProp props "Value" with
          | none => some (.vfloat 0)
          | some v =>
            match jtokenValueDouble v with
            | none => none
            | some q => some (.vfloat q)
        else if valueKind = 5 then some (.vbool true)
        else if valueKind = 6 then some (.vbool false)
        else some (.vstr "N/A")
    | none => some (.vstr (jsonToDisplayString (.jobj props)))
  | .jstr s => some (.vstr s)
  | .jint n => some (.vint n)
  | .jfloat q => some (.vfloat q)
  | .jbool b => some (.vbool b)
  | .jnull => some .vnull
  | .jarr elems => some (.vstr (jsonToDisplayString (.jarr elems)))

/-- LINQ-style `Select` + `ToList` where the selector may throw: `none` as
soon as any element throws. -/
def selectAll (f : α → Option β) : List α → Option (List β)
  | [] => some []
  | a :: l =>
    match f a with
    | none => none
    | some b => (selectAll f l).map (fun bs => b :: bs)

/-- Model of `LegacyDataConverter.ConvertLegacyData` applied to an already-parsed row
(LegacyJsonConverter.cs lines 18-38): the property loop, whose surrounding
`try` turns any exception into an empty dictionary.  The argument is the
outcome of `JObject.Parse`: `none` when parsing threw. -/
def ConvertLegacyData (parsed : Option (List (String × Json))) : List (String × Value) :=
  match parsed with
  | none => []
  | some props =>
    match selectAll (fun p => (ConvertLegacyValue p.2).map (fun v => (p.1, v))) props with
    | none => []
    | some l => l

/-- Wrapper for `ConvertLegacyData` at the string boundary, parameterised by the JSON
parser (`JObject.Parse` is library code; `parse s = none` models a parse
exception or a non-object document). -/
def ConvertLegacyDataStr (parse : String → Option (List (String × Json)))
    (s : String) : List (String × Value) :=
  ConvertLegacyData (parse s)

/-- Model of `ExcelDataService.ConvertJsonElement` (LegacyJsonConverter.cs lines
487-499).  `TryGetInt64` succeeding is the `jint` case; otherwise `GetDouble`
is the `jfloat` case.  This function never returns C# `null`. -/
def ConvertJsonElement : Json → Value
  | .jstr s => .vstr s
  | .jint n => .vint n
  | .jfloat q => .vfloat q
  | .jbool b => .vbool b
  | .jnull => .vstr "N/A"
  | .jobj props => .vstr (jsonToDisplayString (.jobj props))
  | .jarr elems => .vstr (jsonToDisplayString (.jarr elems))

/-! SHA-256 (FIPS 180-4), the hash behind
`System.Security.Cryptography.SHA256` used by `CalculateFileHash`.  All words
are `Nat` values kept below `2 ^ 32` by explicit reduction. -/

/-- Reduction to a 32-bit word. -/
def w32 (x : Nat) : Nat := x % 4294967296

/-- Right rotation of a 32-bit word by `n` places. -/
def rotr32 (n x : Nat) : Nat := (x >>> n) + ((x % (1 <<< n)) <<< (32 - n))

/-- Big sigma-0 of SHA-256. -/
def bsig0 (x : Nat) : Nat := rotr32 2 x ^^^ rotr32 13 x ^^^ rotr32 22 x

/-- Big sigma-1 of SHA-256. -/
def bsig1 (x : Nat) : Nat := rotr32 6 x ^^^ rotr32 11 x ^^^ rotr32 25 x

/-- Small sigma-0 of SHA-256. -/
def ssig0 (x : Nat) : Nat := rotr32 7 x ^^^ rotr32 18 x ^^^ (x >>> 3)

/-- Small sigma-1 of SHA-256. -/
def ssig1 (x : Nat) : Nat := rotr32 17 x ^^^ rotr32 19 x ^^^ (x >>> 10)

/-- Choice function of SHA-256. -/
def schCh (x y z : Nat) : Nat := (x &&& y) ^^^ ((x ^^^ 4294967295) &&& z)

/-- Majority function of SHA-256. -/
def schMaj (x y z : Nat) : Nat := (x &&& y) ^^^ (x &&& z) ^^^ (y &&& z)

/-- The 64 SHA-256 round constants, as decimal word values. -/
def sha256K : List Nat :=
  [1116352408, 1899447441, 3049323471, 3921009573, 961987163,
   1508970993, 2453635748, 2870763221, 3624381080, 310598401,
   607225278, 1426881987, 1925078388, 2162078206, 2614888103,
   3248222580, 3835390401, 4022224774, 264347078, 604807628,
   770255983, 1249150122, 1555081692, 1996064986, 2554220882,
   2821834349, 2952996808, 3210313671, 3336571891, 3584528711,
   113926993, 338241895, 666307205, 773529912, 1294757372,
   1396182291, 1695183700, 1986661051, 2177026350, 2456956037,
   2730485921, 2820302411, 3259730800, 3345764771, 3516065817,
   3600352804, 4094571909, 275423344, 430227734, 506948616,
   659060556, 883997877, 958139571, 1322822218, 1537002063,
   1747873779, 1955562222, 2024104815, 2227730452, 2361852424,
   2428436474, 2756734187, 3204031479, 3329325298]

/-- The initial SHA-256 hash state, as decimal word values. -/
def sha256H0 : List Nat :=
  [1779033703, 3144134277, 1013904242, 2773480762, 1359893119,
   2600822924, 528734635, 1541459225]

/-- Message-schedule extension: append `n` further schedule words. -/
def extendWords : Nat → List Nat → List Nat
  | 0, ws => ws
  | n + 1, ws =>
    let i := ws.length
    let w := w32 (ssig1 (ws.getD (i - 2) 0) + ws.getD (i - 7) 0 +
                  ssig0 (ws.getD (i - 15) 0) + ws.getD (i - 16) 0)
    extendWords n (ws ++ [w])

/-- One SHA-256 compression round; the state is the word list `[a,…,h]` and
`kw` is the precombined round constant plus schedule word. -/
def compressRound (st : List Nat) (kw : Nat) : List Nat :=
  match st with
  | [a, b, c, d, e, f, g, h] =>
    let t1 := w32 (h + bsig1 e + schCh e f g + kw)
    let t2 := w32 (bsig0 a + schMaj a b c)
    [w32 (t1 + t2), a, b, c, w32 (d + t1), e, f, g]
  | _ => st

/-- Big-endian packing of bytes into 32-bit words, four bytes per word. -/
def bytesToWords : List Nat → List Nat
  | b0 :: b1 :: b2 :: b3 :: rest =>
    (((b0 * 256 + b1) * 256 + b2) * 256 + b3) :: bytesToWords rest
  | _ => []

/-- Fuel-driven worker for `chunks`: structural recursion on the fuel so that
the kernel can evaluate it. -/
def chunksF (n : Nat) : Nat → List α → List (List α)
  | 0, _ => []
  | _, [] => []
  | fuel + 1, a :: l => (a :: l).take n :: chunksF n fuel ((a :: l).drop n)

/-- Splitting a list into chunks of `n` elements (meaningful for `n > 0`; the
callers below pass 64 or a positive batch size). -/
def chunks (n : Nat) (l : List α) : List (List α) :=
  chunksF n l.length l

/-- Compression of one 64-byte block into the running hash state. -/
def sha256Block (hstate : List Nat) (block : List Nat) : List Nat :=
  let ws := extendWords 48 (bytesToWords block)
  let kw := List.zipWith (fun k w => w32 (k + w)) sha256K ws
  let final := kw.foldl compressRound hstate
  List.zipWith (fun hv v => w32 (hv + v)) hstate final

/-- Big-endian bytes of a 32-bit word. -/
def wordBytes (w : Nat) : List Nat :=
  [w / 16777216 % 256, w / 65536 % 256, w / 256 % 256, w % 256]

/-- SHA-256 padding: a `0x80` byte, zeros to 56 mod 64, and the bit length as
eight big-endian bytes. -/
def sha256Pad (msg : List Nat) : List Nat :=
  let len := msg.length
  let zeros := (64 + 56 - (len + 1) % 64) % 64
  msg ++ [0x80] ++ List.replicate zeros 0 ++
    [len * 8 / 72057594037927936 % 256, len * 8 / 281474976710656 % 256,
     len * 8 / 1099511627776 % 256, len * 8 / 4294967296 % 256,
     len * 8 / 16777216 % 256, len * 8 / 65536 % 256,
     len * 8 / 256 % 256, len * 8 % 256]

/-- SHA-256 digest (32 bytes) of a byte sequence. -/
def sha256 (msg : List Nat) : List Nat :=
  ((chunks 64 (sha256Pad msg)).foldl sha256Block sha256H0).flatMap wordBytes

/-- Uppercase hexadecimal character for a nibble. -/
def hexChar (n : Nat) : Char :=
  Char.ofNat (if n < 10 then 48 + n else 55 + n)

/-- Uppercase hexadecimal string of a byte list, as produced by
`Convert.ToHexString`. -/
def toHexUpper (bytes : List Nat) : String :=
  String.mk (bytes.flatMap (fun b => [hexChar (b / 16), hexChar (b % 16)]))

/-- Model of `ExcelDataService.ConvertJsonElementsToValues` (lines 462-480).  An
incoming field value is either a deserialized `JsonElement` (`some j`) or a
plain C# `null` (`none`); the write path replaces `null` results with the
sentinel `"N/A"` via `value ?? "N/A"`. -/
def ConvertJsonElementsToValues (row : List (String × Option Json)) :
    List (String × Value) :=
  row.map (fun p =>
    (p.1, match p.2 with
          | none => .vstr "N/A"
          | some e => ConvertJsonElement e))

/-! Upload DTOs (Models/DTOs, ExcelController.cs lines 355-395). -/

/-- Model of `SheetDataDto`: one sheet of an upload.  A data row is an
insertion-ordered field map whose values are deserialized `JsonElement`s
(`some j`) or C# `null` (`none`). -/
structure SheetDataDto where
  sheetName : String
  headers : List String
  data : List (List (String × Option Json))
deriving Repr

/-- Model of `MetadataDto`. -/
structure MetadataDto where
  exportedAt : Int
  excludedSheets : List String
deriving Repr

/-- Model of `ExcelUploadDto`; its `sheets` is the insertion-ordered dictionary of
sheet name to sheet payload. -/
structure ExcelUploadDto where
  fileName : String
  importedBy : Option String
  metadata : MetadataDto
  sheets : List (String × SheetDataDto)
deriving Repr

/-- JSON tree of an incoming field value: C# `null` serializes as JSON
`null`. -/
def fieldValueJson : Option Json → Json
  | none => .jnull
  | some j => j

/-- JSON tree that Newtonsoft builds for a `SheetDataDto` (default contract:
PascalCase property names, properties in declaration order). -/
def sheetDtoJson (d : SheetDataDto) : Json :=
  .jobj [("SheetName", .jstr d.sheetName),
         ("Headers", .jarr (d.headers.map .jstr)),
         ("Data", .jarr (d.data.map (fun row =>
            .jobj (row.map (fun f => (f.1, fieldValueJson f.2))))))]

/-- Serialization bytes of `uploadData.Sheets`, the exact input of the hash
in `CalculateFileHash` (LegacyJsonConverter.cs line 506): dictionary entries
in insertion order. -/
def serializeSheets (sheets : List (String × SheetDataDto)) : List Nat :=
  serializeJson (.jobj (sheets.map (fun p => (p.1, sheetDtoJson p.2))))

/-- Model of `ExcelDataService.CalculateFileHash` (lines 504-510): uppercase hex of
the SHA-256 of the UTF-8 bytes of the serialized sheet dictionary. -/
def CalculateFileHash (u : ExcelUploadDto) : String :=
  toHexUpper (sha256 (serializeSheets u.sheets))

/-! Map-equality of payloads, used to state the fingerprint claims: equality
of the sheet dictionaries as unordered mappings, with per-row field maps also
compared as unordered mappings. -/

/-- Two data rows are equal as field-to-value mappings. -/
def rowEquiv (r1 r2 : List (String × Option Json)) : Bool :=
  r1.all (fun p => List.lookup p.1 r2 == some p.2) &&
  r2.all (fun p => List.lookup p.1 r1 == some p.2)

/-- Two sheet payloads have the same name, headers, and row sequence, with
rows compared as mappings. -/
def sheetEquiv (a b : SheetDataDto) : Bool :=
  a.sheetName == b.sheetName && a.headers == b.headers &&
  a.data.length == b.data.length &&
  (a.data.zip b.data).all (fun pr => rowEquiv pr.1 pr.2)

/-- Two sheet dictionaries are equal as mappings from sheet name to sheet
content. -/
def sheetsEquiv (xs ys : List (String × SheetDataDto)) : Bool :=
  xs.all (fun p => match List.lookup p.1 ys with
                   | some t => sheetEquiv p.2 t
                   | none => false) &&
  ys.all (fun p => match List.lookup p.1 xs with
                   | some t => sheetEquiv p.2 t
                   | none => false)

/-! Persistent entity records (Models: ImportSession, Sheet, SheetData,
ExcludedSheet) and the store.  `Guid` keys are `Nat` values issued from the
freshness counter `nextId`; `Sheet.Headers` is persisted as a JSON-encoded
string and read back with `DeserializeObject<List<string>>`, an exact round
trip modelled by keeping the header list itself; `SheetData.RowData` is
persisted as the serialized converted row and parsed back on read, likewise an
exact round trip kept as the converted field map. -/

/-- Persistent `ImportSession` row. -/
structure SessionRec where
  id : Nat
  fileName : String
  fileHash : String
  importedBy : Option String
  totalSheets : Nat
  processedSheets : Nat
  excludedSheets : Nat
  totalRows : Nat
  importedAt : Int
  status : String
  processingTimeMs : Option Nat
deriving DecidableEq, Repr

/-- Persistent `Sheet` row. -/
structure SheetRec where
  id : Nat
  sessionId : Nat
  sheetName : String
  sheetIndex : Nat
  rowCount : Nat
  columnCount : Nat
  headers : List String
deriving DecidableEq, Repr

/-- Persistent `SheetData` row. -/
structure RowRec where
  id : Nat
  sheetId : Nat
  rowIndex : Nat
  rowData : List (String × Value)
deriving DecidableEq, Repr

/-- Persistent `ExcludedSheet` row. -/
structure ExclRec where
  id : Nat
  sessionId : Nat
  sheetName : String
  exclusionReason : Option String
deriving DecidableEq, Repr

/-- The database state. -/
structure Store where
  nextId : Nat
  sessions : List SessionRec
  sheets : List SheetRec
  excluded : List ExclRec
  rows : List RowRec
deriving DecidableEq, Repr

/-- Model of `UploadResponseDto`. -/
structure UploadResponseDto where
  sessionId : Nat
  message : String
  processedSheets : Nat
  totalRows : Nat
  excludedSheets : Nat
  processingTimeMs : Nat
deriving DecidableEq, Repr

/-- Transaction-scoped state: the tentative store plus the count of
`SaveChangesAsync` calls made so far in this attempt. -/
structure TxState where
  σ : Store
  calls : Nat
deriving Repr

/-- A fault is injected at a given `SaveChangesAsync` call (by 0-based call
index) with a given exception message; `none` injects no fault. -/
def doSave (fault : Option (Nat × String)) (ts : TxState) : Except String TxState :=
  match fault with
  | some (k, msg) =>
    if k = ts.calls then .error msg else .ok { ts with calls := ts.calls + 1 }
  | none => .ok { ts with calls := ts.calls + 1 }

/-- The `ExcludedSheet` records created for the excluded names, with ids issued
in order (each entity draws its `Guid` at construction). -/
def exclRecsFrom (sessionId firstId : Nat) : List String → List ExclRec
  | [] => []
  | nm :: rest =>
    { id := firstId, sessionId := sessionId, sheetName := nm,
      exclusionReason := some "Excluded by user pattern matching" } ::
      exclRecsFrom sessionId (firstId + 1) rest

/-- The `SheetData` records for one batch: consecutive ids and row indexes, the
row payload converted by `ConvertJsonElementsToValues` before serialization. -/
def rowRecsFrom (sheetId firstId startIdx : Nat) :
    List (List (String × Option Json)) → List RowRec
  | [] => []
  | row :: rest =>
    { id := firstId, sheetId := sheetId, rowIndex := startIdx,
      rowData := ConvertJsonElementsToValues row } ::
      rowRecsFrom sheetId (firstId + 1) (startIdx + 1) rest

/-- The batched row-insert loop of `SaveSheetDataAsync` (lines 436-451): one
`SaveChangesAsync` per batch. -/
def writeRowBatches (fault : Option (Nat × String)) (sheetId : Nat) :
    List (List (List (String × Option Json))) → Nat → TxState → Except String TxState
  | [], _, ts => .ok ts
  | batch :: rest, startIdx, ts =>
    let recs := rowRecsFrom sheetId ts.σ.nextId startIdx batch
    let ts1 : TxState :=
      { ts with σ := { ts.σ with nextId := ts.σ.nextId + batch.length,
                                 rows := ts.σ.rows ++ recs } }
    match doSave fault ts1 with
    | .error e => .error e
    | .ok ts2 => writeRowBatches fault sheetId rest (startIdx + batch.length) ts2

/-- Model of `ExcelDataService.SaveSheetDataAsync` (lines 418-455): insert the sheet
row, `SaveChangesAsync` to obtain its id, then write the data rows in batches
of `batchSize`. -/
def saveSheetData (fault : Option (Nat × String)) (batchSize sessionId : Nat)
    (dto : SheetDataDto) (sheetIndex : Nat) (ts : TxState) : Except String TxState :=
  let sheetId := ts.σ.nextId
  let sheetRec : SheetRec :=
    { id := sheetId, sessionId := sessionId, sheetName := dto.sheetName,
      sheetIndex := sheetIndex, rowCount := dto.data.length,
      columnCount := dto.headers.length, headers := dto.headers }
  let ts1 : TxState :=
    { ts with σ := { ts.σ with nextId := ts.σ.nextId + 1,
                               sheets := ts.σ.sheets ++ [sheetRec] } }
  match doSave fault ts1 with
  | .error e => .error e
  | .ok ts2 => writeRowBatches fault sheetId (chunks batchSize dto.data) 0 ts2

/-- The sheet loop of `SaveExcelDataAsync` (lines 207-211): original order,
position indexes assigned from 0. -/
def saveSheetsLoop (fault : Option (Nat × String)) (batchSize sessionId : Nat) :
    List (String × SheetDataDto) → Nat → TxState → Except String TxState
  | [], _, ts => .ok ts
  | (_, dto) :: rest, idx, ts =>
    match saveSheetData fault batchSize sessionId dto idx ts with
    | .error e => .error e
    | .ok ts2 => saveSheetsLoop fault batchSize sessionId rest (idx + 1) ts2

/-- The status update of lines 213-215: the tracked session entity is marked
Completed with the measured duration. -/
def updateSessionCompleted (sessionId elapsedMs : Nat) (σ : Store) : Store :=
  { σ with sessions := σ.sessions.map (fun s =>
      if s.id = sessionId
      then { s with status := "Completed", processingTimeMs := some elapsedMs }
      else s) }

/-- The transaction body of `SaveExcelDataAsync` (lines 171-237), after the
session row has been inserted into the tentative state. -/
def runImportTx (fault : Option (Nat × String)) (batchSize sessionId elapsedMs : Nat)
    (u : ExcelUploadDto) (ts : TxState) : Except String TxState :=
  match doSave fault ts with
  | .error e => .error e
  | .ok ts1 =>
    let ts2 : TxState :=
      { ts1 with σ := { ts1.σ with
          nextId := ts1.σ.nextId + u.metadata.excludedSheets.length,
          excluded := ts1.σ.excluded ++
            exclRecsFrom sessionId ts1.σ.nextId u.metadata.excludedSheets } }
    match saveSheetsLoop fault batchSize sessionId u.sheets 0 ts2 with
    | .error e => .error e
    | .ok ts3 =>
      doSave fault { ts3 with σ := updateSessionCompleted sessionId elapsedMs ts3.σ }

/-- The duplicate short-circuit response of lines 160-168: the existing
session's identifiers and stored counts. -/
def dupResponse (existing : SessionRec) : UploadResponseDto :=
  { sessionId := existing.id,
    message := "File already exists. Existing session ID: " ++ toString existing.id,
    processedSheets := existing.processedSheets,
    totalRows := existing.totalRows,
    excludedSheets := existing.excludedSheets,
    processingTimeMs := existing.processingTimeMs.getD 0 }

/-- Model of `ExcelDataService.SaveExcelDataAsync` (lines 140-244).  The first
component is the call outcome (`.error` models the propagated exception), the
second the store after the call: unchanged on the duplicate short-circuit and,
because the transaction rolls back, unchanged on any failure. -/
def saveExcelData (σ : Store) (u : ExcelUploadDto) (now : Int)
    (elapsedMs batchSize : Nat) (fault : Option (Nat × String)) :
    Except String UploadResponseDto × Store :=
  let fileHash := CalculateFileHash u
  match σ.sessions.find? (fun s => s.fileHash == fileHash) with
  | some existing => (.ok (dupResponse existing), σ)
  | none =>
    let sessionId := σ.nextId
    let session : SessionRec :=
      { id := sessionId, fileName := u.fileName, fileHash := fileHash,
        importedBy := u.importedBy,
        totalSheets := u.sheets.length + u.metadata.excludedSheets.length,
        processedSheets := u.sheets.length,
        excludedSheets := u.metadata.excludedSheets.length,
        totalRows := (u.sheets.map (fun p => p.2.data.length)).sum,
        importedAt := now, status := "Processing", processingTimeMs := none }
    let ts0 : TxState :=
      { σ := { σ with nextId := σ.nextId + 1, sessions := σ.sessions ++ [session] },
        calls := 0 }
    match runImportTx fault batchSize sessionId elapsedMs u ts0 with
    | .error e => (.error e, σ)
    | .ok ts =>
      (.ok { sessionId := sessionId,
             message := "Excel data saved successfully",
             processedSheets := session.processedSheets,
             totalRows := session.totalRows,
             excludedSheets := session.excludedSheets,
             processingTimeMs := elapsedMs }, ts.σ)

/-! Read-side DTOs and the query layer (LegacyJsonConverter.cs lines
246-398). -/

/-- Model of `SheetSummaryDto`. -/
structure SheetSummaryDto where
  id : Nat
  sheetName : String
  sheetIndex : Nat
  rowCount : Nat
  columnCount : Nat
  headers : List String
deriving DecidableEq, Repr

/-- Model of `ExcludedSheetDto`. -/
structure ExcludedSheetDto where
  sheetName : String
  exclusionReason : Option String
deriving DecidableEq, Repr

/-- Model of `SessionDataDto`. -/
structure SessionDataDto where
  id : Nat
  fileName : String
  importedAt : Int
  totalSheets : Nat
  processedSheets : Nat
  excludedSheets : Nat
  totalRows : Nat
  status : String
  sheets : List SheetSummaryDto
  excludedSheetsList : List ExcludedSheetDto
deriving DecidableEq, Repr

/-- Model of `SheetDetailDto`. -/
structure SheetDetailDto where
  id : Nat
  sheetName : String
  sheetIndex : Nat
  headers : List String
  data : List (List (String × Value))
deriving DecidableEq, Repr

/-- Model of `SessionListDto`. -/
structure SessionListDto where
  id : Nat
  fileName : String
  importedAt : Int
  totalSheets : Nat
  processedSheets : Nat
  totalRows : Nat
  status : String
deriving DecidableEq, Repr

/-- Model of `SearchRequestDto`. -/
structure SearchRequestDto where
  searchTerm : String
  sessionId : Option Nat
  pageNumber : Nat
  pageSize : Nat
deriving DecidableEq, Repr

/-- Model of `SearchResultDto`. -/
structure SearchResultDto where
  sheetName : String
  rowIndex : Nat
  rowData : List (String × Value)
  fileName : String
  importedAt : Int
  sessionId : Nat
deriving DecidableEq, Repr

/-- Model of `PagedResponseDto<T>`. -/
structure PagedResponseDto (T : Type) where
  data : List T
  currentPage : Nat
  pageSize : Nat
  totalRecords : Nat
  totalPages : Nat
  hasNextPage : Bool
  hasPreviousPage : Bool
deriving Repr

/-- Model of `(int)Math.Ceiling((double)totalRecords / pageSize)`: for counts
and page sizes in `int` range the double arithmetic is exact, so this is the
natural-number ceiling division. -/
def totalPagesFor (totalRecords pageSize : Nat) : Nat :=
  (totalRecords + pageSize - 1) / pageSize

/-- The header transform of lines 275-277 and 308-310:
`char.ToLower(h[0]) + h.Substring(1)`.  Indexing `h[0]` on an empty string
throws (`none`).  `Char.toLower` matches `char.ToLower` on the ASCII headers
this pipeline produces. -/
def decapitalizeHeader (h : String) : Option String :=
  match h.data with
  | [] => none
  | c :: cs => some (String.mk (Char.toLower c :: cs))

/-- JSON tree of a persisted row payload: the outcome of
`JObject.Parse(JsonConvert.SerializeObject(convertedRow))`, which round-trips
the converted field map exactly. -/
def storedRowJson (rd : List (String × Value)) : List (String × Json) :=
  rd.map (fun p =>
    (p.1, match p.2 with
          | .vstr s => Json.jstr s
          | .vint n => Json.jint n
          | .vfloat q => Json.jfloat q
          | .vbool b => Json.jbool b
          | .vnull => Json.jnull))

/-- Model of `ExcelDataService.GetSessionDataAsync` (lines 249-285).  `.error` models
the unguarded header indexing throwing out of the whole read; `.ok none` is
the not-found outcome. -/
def getSessionData (σ : Store) (sessionId : Nat) :
    Except String (Option SessionDataDto) :=
  match σ.sessions.find? (fun s => s.id == sessionId) with
  | none => .ok none
  | some s =>
    let shs := List.insertionSort (fun a b => a.sheetIndex ≤ b.sheetIndex)
      (σ.sheets.filter (fun sh => sh.sessionId == sessionId))
    match selectAll (fun sh =>
        (selectAll decapitalizeHeader sh.headers).map (fun hs =>
          ({ id := sh.id, sheetName := sh.sheetName, sheetIndex := sh.sheetIndex,
             rowCount := sh.rowCount, columnCount := sh.columnCount,
             headers := hs } : SheetSummaryDto))) shs with
    | none => .error "IndexOutOfRangeException"
    | some summaries =>
      .ok (some
        { id := s.id, fileName := s.fileName, importedAt := s.importedAt,
          totalSheets := s.totalSheets, processedSheets := s.processedSheets,
          excludedSheets := s.excludedSheets, totalRows := s.totalRows,
          status := s.status, sheets := summaries,
          excludedSheetsList :=
            (σ.excluded.filter (fun e => e.sessionId == sessionId)).map
              (fun e => { sheetName := e.sheetName,
                          exclusionReason := e.exclusionReason }) })

/-- Model of `ExcelDataService.GetSheetDetailAsync` (lines 290-313).  Row payloads are
decoded with the legacy converter, which never throws; the header transform
can. -/
def getSheetDetail (σ : Store) (sheetId : Nat) :
    Except String (Option SheetDetailDto) :=
  match σ.sheets.find? (fun sh => sh.id == sheetId) with
  | none => .ok none
  | some sh =>
    let sortedRows := List.insertionSort (fun a b => a.rowIndex ≤ b.rowIndex)
      (σ.rows.filter (fun r => r.sheetId == sheetId))
    let data := sortedRows.map (fun r => ConvertLegacyData (some (storedRowJson r.rowData)))
    match selectAll decapitalizeHeader sh.headers with
    | none => .error "IndexOutOfRangeException"
    | some hs =>
      .ok (some { id := sh.id, sheetName := sh.sheetName,
                  sheetIndex := sh.sheetIndex, headers := hs, data := data })

/-- Model of `ExcelDataService.GetSessionsAsync` (lines 318-351). -/
def getSessions (σ : Store) (pageNumber pageSize : Nat) :
    PagedResponseDto SessionListDto :=
  let sorted := List.insertionSort
    (fun a b : SessionRec => b.importedAt ≤ a.importedAt) σ.sessions
  let totalRecords := σ.sessions.length
  let totalPages := totalPagesFor totalRecords pageSize
  { data := ((sorted.drop ((pageNumber - 1) * pageSize)).take pageSize).map
      (fun s => { id := s.id, fileName := s.fileName, importedAt := s.importedAt,
                  totalSheets := s.totalSheets, processedSheets := s.processedSheets,
                  totalRows := s.totalRows, status := s.status }),
    currentPage := pageNumber, pageSize := pageSize,
    totalRecords := totalRecords, totalPages := totalPages,
    hasNextPage := decide (pageNumber < totalPages),
    hasPreviousPage := decide (1 < pageNumber) }

/-- One search hit before projection to the DTO: the row joined to its owning
sheet and session, keeping the sheet position index the ordering sorts on. -/
structure SearchEntry where
  rowIndex : Nat
  sheetName : String
  sheetIndex : Nat
  sessionId : Nat
  fileName : String
  importedAt : Int
  rowData : List (String × Value)
deriving DecidableEq, Repr

/-- The `Include`/`ThenInclude` join of a data row to its sheet and session
(inner join: the foreign keys always resolve in a consistent store). -/
def joinRow (σ : Store) (r : RowRec) : Option SearchEntry :=
  match σ.sheets.find? (fun sh => sh.id == r.sheetId) with
  | none => none
  | some sh =>
    match σ.sessions.find? (fun s => s.id == sh.sessionId) with
    | none => none
    | some s =>
      some { rowIndex := r.rowIndex, sheetName := sh.sheetName,
             sheetIndex := sh.sheetIndex, sessionId := sh.sessionId,
             fileName := s.fileName, importedAt := s.importedAt,
             rowData := r.rowData }

/-- Does `text` contain `pat` starting at its head? -/
def leadMatch : List Nat → List Nat → Bool
  | [], _ => true
  | _ :: _, [] => false
  | p :: ps, t :: ts => p == t && leadMatch ps ts

/-- Substring containment on byte lists: model of ordinal
`string.Contains`. -/
def hasSub (text pat : List Nat) : Bool :=
  leadMatch pat text ||
  match text with
  | [] => false
  | _ :: rest => hasSub rest pat

/-- The stored `RowData` text of a row, as bytes. -/
def rowTextBytes (rd : List (String × Value)) : List Nat :=
  serializeJson (.jobj (storedRowJson rd))

/-- The filtered search result set (lines 358-366): substring match on the
raw row payload text, optionally restricted to one session. -/
def searchMatches (σ : Store) (req : SearchRequestDto) : List SearchEntry :=
  (σ.rows.filterMap (joinRow σ)).filter (fun e =>
    hasSub (rowTextBytes e.rowData) (strBytes req.searchTerm) &&
    match req.sessionId with
    | none => true
    | some sid => e.sessionId == sid)

/-- The search ordering (lines 372-374): owning session imported-at
descending, then sheet position index ascending, then row index ascending. -/
def searchOrd (a b : SearchEntry) : Prop :=
  b.importedAt < a.importedAt ∨
    (a.importedAt = b.importedAt ∧
      (a.sheetIndex < b.sheetIndex ∨
        (a.sheetIndex = b.sheetIndex ∧ a.rowIndex ≤ b.rowIndex)))

instance : DecidableRel searchOrd := fun a b => by
  unfold searchOrd; infer_instance

instance : IsTotal SearchEntry searchOrd := by
  constructor; intro a b; unfold searchOrd; omega

instance : IsTrans SearchEntry searchOrd := by
  constructor; intro a b c; unfold searchOrd; omega

/-- The page of joined search hits after ordering and pagination
(lines 371-376). -/
def searchPageEntries (σ : Store) (req : SearchRequestDto) : List SearchEntry :=
  ((List.insertionSort searchOrd (searchMatches σ req)).drop
      ((req.pageNumber - 1) * req.pageSize)).take req.pageSize

/-- Projection of a joined hit to `SearchResultDto` (lines 377-385); the
stored payload is decoded with the legacy converter. -/
def toSearchResultDto (e : SearchEntry) : SearchResultDto :=
  { sheetName := e.sheetName, rowIndex := e.rowIndex,
    rowData := ConvertLegacyData (some (storedRowJson e.rowData)),
    fileName := e.fileName, importedAt := e.importedAt,
    sessionId := e.sessionId }

/-- Model of `ExcelDataService.SearchDataAsync` (lines 356-398). -/
def searchData (σ : Store) (req : SearchRequestDto) :
    PagedResponseDto SearchResultDto :=
  let totalRecords := (searchMatches σ req).length
  let totalPages := totalPagesFor totalRecords req.pageSize
  { data := (searchPageEntries σ req).map toSearchResultDto,
    currentPage := req.pageNumber, pageSize := req.pageSize,
    totalRecords := totalRecords, totalPages := totalPages,
    hasNextPage := decide (req.pageNumber < totalPages),
    hasPreviousPage := decide (1 < req.pageNumber) }

/-! Shared fixtures for concrete witnesses. -/

/-- An upload fixture: one processed sheet with one row, one excluded sheet. -/
def exUpload : ExcelUploadDto :=
  { fileName := "report.xlsx", importedBy := some "me",
    metadata := { exportedAt := 0, excludedSheets := ["Summary"] },
    sheets := [("Data",
      { sheetName := "Data", headers := ["Name", "Amount"],
        data := [[("Name", some (.jstr "Acme")), ("Amount", some (.jint 100))]] })] }

/-- The same sheet content as `exUpload` with the two row fields in the
opposite insertion order. -/
def exUploadPerm : ExcelUploadDto :=
  { fileName := "report.xlsx", importedBy := some "me",
    metadata := { exportedAt := 0, excludedSheets := ["Summary"] },
    sheets := [("Data",
      { sheetName := "Data", headers := ["Name", "Amount"],
        data := [[("Amount", some (.jint 100)), ("Name", some (.jstr "Acme"))]] })] }

/-- The empty store. -/
def exEmptyStore : Store :=
  { nextId := 0, sessions := [], sheets := [], excluded := [], rows := [] }

/-- The digest input, hence the digest, is computed from the sheet dictionary
alone, exactly as serialized: uploads with syntactically identical sheet
dictionaries hash identically whatever their file names or metadata. -/
theorem hash_from_sheets_only (u1 u2 : ExcelUploadDto)
    (h : u1.sheets = u2.sheets) : CalculateFileHash u1 = CalculateFileHash u2 := by
  unfold CalculateFileHash serializeSheets
  rw [h]

set_option maxRecDepth 40000 in
set_option maxHeartbeats 1000000 in
/-- Claim C1 (corrected), counterexample: two upload payloads whose sheet
dictionaries are equal as mappings (witnessed by `sheetsEquiv`) but whose row
fields are inserted in different orders produce different content digests,
because `CalculateFileHash` hashes the insertion-ordered serialization. -/
theorem claim_C1_counterexample :
    sheetsEquiv exUpload.sheets exUploadPerm.sheets = true ∧
    CalculateFileHash exUpload ≠ CalculateFileHash exUploadPerm := by
  constructor
  · decide
  · decide

/-- Claim C1 (amended): the digest is insensitive to everything outside the
sheet dictionary, and payloads whose sheet dictionaries are equal as ordered
structures (same sheet and field insertion order) receive the same digest;
order-insensitivity as mappings does not hold (see the counterexample). -/
theorem claim_C1_theorem (u1 u2 : ExcelUploadDto)
    (h : u1.sheets = u2.sheets) : CalculateFileHash u1 = CalculateFileHash u2 :=
  hash_from_sheets_only u1 u2 h

/-- Witness for C1: two uploads with different file names and uploaders but
identical sheet dictionaries receive the same digest. -/
theorem claim_C1_witness :
    CalculateFileHash exUpload =
      CalculateFileHash { exUpload with fileName := "other.xlsx", importedBy := none } :=
  claim_C1_theorem _ _ (by rfl)

/-- Claim C4 (corrected), counterexample: a legacy String-tagged value whose
raw value is present but empty decodes to the sentinel `"N/A"`, not to the
empty string the claim requires (`IsNullOrEmpty` guards the raw value). -/
theorem claim_C4_counterexample :
    ConvertLegacyValue (.jobj [("ValueKind", .jint 3), ("Value", .jstr "")]) =
      some (.vstr "N/A") ∧
    some (Value.vstr "") ≠
      ConvertLegacyValue (.jobj [("ValueKind", .jint 3), ("Value", .jstr "")]) := by
  constructor
  · decide
  · decide

/-- Claim C4 (amended): legacy tagged decoding maps a String discriminator
with a non-empty raw value to that string and with an absent, null, or empty
raw value to `"N/A"`; Null and Undefined to `"N/A"`; Number to the raw
numeric value, 0 when absent; True and False to the booleans; any other
discriminator to `"N/A"`; and plain scalar tokens to themselves. -/
theorem claim_C4_theorem :
    (∀ s : String, s ≠ "" →
      ConvertLegacyValue (.jobj [("ValueKind", .jint 3), ("Value", .jstr s)]) =
        some (.vstr s)) ∧
    ConvertLegacyValue (.jobj [("ValueKind", .jint 3)]) = some (.vstr "N/A") ∧
    ConvertLegacyValue (.jobj [("ValueKind", .jint 3), ("Value", .jstr "")]) =
      some (.vstr "N/A") ∧
    ConvertLegacyValue (.jobj [("ValueKind", .jint 3), ("Value", .jnull)]) =
      some (.vstr "N/A") ∧
    (∀ q : Rat,
      ConvertLegacyValue (.jobj [("ValueKind", .jint 4), ("Value", .jfloat q)]) =
        some (.vfloat q)) ∧
    ConvertLegacyValue (.jobj [("ValueKind", .jint 4)]) = some (.vfloat 0) ∧
    ConvertLegacyValue (.jobj [("ValueKind", .jint 5)]) = some (.vbool true) ∧
    ConvertLegacyValue (.jobj [("ValueKind", .jint 6)]) = some (.vbool false) ∧
    ConvertLegacyValue (.jobj [("ValueKind", .jint 7)]) = some (.vstr "N/A") ∧
    ConvertLegacyValue (.jobj [("ValueKind", .jint 0)]) = some (.vstr "N/A") ∧
    (∀ k : Int, k ≠ 3 → k ≠ 4 → k ≠ 5 → k ≠ 6 → ∀ rest,
      ConvertLegacyValue (.jobj (("ValueKind", .jint k) :: rest)) =
        some (.vstr "N/A")) ∧
    (∀ s, ConvertLegacyValue (.jstr s) = some (.vstr s)) ∧
    (∀ n : Int, ConvertLegacyValue (.jint n) = some (.vint n)) ∧
    (∀ q : Rat, ConvertLegacyValue (.jfloat q) = some (.vfloat q)) ∧
    (∀ b, ConvertLegacyValue (.jbool b) = some (.vbool b)) ∧
    ConvertLegacyValue .jnull = some Value.vnull := by
  refine ⟨?_, by decide, by decide, by decide, ?_, by decide, by decide, by decide,
          by decide, by decide, ?_, ?_, ?_, ?_, ?_, by decide⟩
  · intro s hs
    simp [ConvertLegacyValue, getProp, List.find?, jtokenValueInt, jtokenValueString, hs]
  · intro q
    simp [ConvertLegacyValue, getProp, List.find?, jtokenValueInt, jtokenValueDouble]
  · intro k h3 h4 h5 h6 rest
    simp [ConvertLegacyValue, getProp, List.find?, jtokenValueInt, h3, h4, h5, h6]
  · intro s; rfl
  · intro n; rfl
  · intro q; rfl
  · intro b; rfl

/-- Witness for C4: the quantified clauses evaluated at concrete inputs. -/
theorem claim_C4_witness :
    ConvertLegacyValue (.jobj [("ValueKind", .jint 3), ("Value", .jstr "hello")]) =
      some (.vstr "hello") ∧
    ConvertLegacyValue (.jobj [("ValueKind", .jint 4), ("Value", .jfloat (25 / 2 : Rat))]) =
      some (.vfloat (25 / 2 : Rat)) ∧
    ConvertLegacyValue (.jobj [("ValueKind", .jint 2)]) = some (.vstr "N/A") :=
  ⟨claim_C4_theorem.1 "hello" (by decide),
   claim_C4_theorem.2.2.2.2.1 (25 / 2 : Rat),
   claim_C4_theorem.2.2.2.2.2.2.2.2.2.2.1 2 (by decide) (by decide) (by decide)
     (by decide) []⟩

/-- If one element maps to `none` (throws), the whole selection is `none`. -/
theorem selectAll_of_mem_none {α β : Type} {f : α → Option β} {l : List α} {a : α}
    (ha : a ∈ l) (hfa : f a = none) : selectAll f l = none := by
  induction l with
  | nil => cases ha
  | cons b t ih =>
    cases ha with
    | head => simp [selectAll, hfa]
    | tail _ h =>
      cases hfb : f b with
      | none => simp [selectAll, hfb]
      | some c => simp [selectAll, hfb, ih h]

/-- Claim C5 (confirmed): row decode is total by construction, and both a
parse failure of the whole row and a conversion exception inside the property
loop yield the empty mapping instead of propagating a fault. -/
theorem claim_C5_theorem (parse : String → Option (List (String × Json))) (s : String) :
    (parse s = none → ConvertLegacyDataStr parse s = []) ∧
    (∀ props, parse s = some props → (∃ p ∈ props, ConvertLegacyValue p.2 = none) →
      ConvertLegacyDataStr parse s = []) := by
  constructor
  · intro h
    simp [ConvertLegacyDataStr, ConvertLegacyData, h]
  · intro props hp hex
    obtain ⟨p, hpmem, hpnone⟩ := hex
    have hnone : selectAll (fun q => (ConvertLegacyValue q.2).map (fun v => (q.1, v)))
        props = none :=
      selectAll_of_mem_none hpmem (by simp [hpnone])
    simp [ConvertLegacyDataStr, ConvertLegacyData, hp, hnone]

/-- Witness for C5: a parser that rejects everything, and a row whose single
property holds an unconvertible tagged value, both decode to the empty map. -/
theorem claim_C5_witness :
    ConvertLegacyDataStr (fun _ => none) "not json" = [] ∧
    ConvertLegacyDataStr
      (fun _ => some [("f", .jobj [("ValueKind", .jstr "bad")])]) "x" = [] := by
  constructor
  · exact (claim_C5_theorem (fun _ => none) "not json").1 rfl
  · exact (claim_C5_theorem _ "x").2 _ rfl
      ⟨("f", .jobj [("ValueKind", .jstr "bad")]), by simp, by decide⟩

/-! Error propagation: every `.error` outcome of the transaction body carries
the injected fault's own message — nothing catches, replaces, or remaps it. -/

/-- A failing `SaveChangesAsync` surfaces the injected message itself. -/
theorem doSave_error {fk : Nat} {msg e : String} {ts : TxState}
    (h : doSave (some (fk, msg)) ts = .error e) : e = msg := by
  simp only [doSave] at h
  by_cases hk : fk = ts.calls
  · rw [if_pos hk] at h
    exact (Except.error.inj h).symm
  · rw [if_neg hk] at h
    simp at h

/-- The row-batch loop propagates the fault message unchanged. -/
theorem writeRowBatches_error {fk : Nat} {msg e : String} {sheetId : Nat}
    {batches : List (List (List (String × Option Json)))} {startIdx : Nat} {ts : TxState}
    (h : writeRowBatches (some (fk, msg)) sheetId batches startIdx ts = .error e) :
    e = msg := by
  induction batches generalizing startIdx ts with
  | nil => simp [writeRowBatches] at h
  | cons batch rest ih =>
    simp only [writeRowBatches] at h
    split at h
    · rename_i e2 hds
      exact (Except.error.inj h) ▸ doSave_error hds
    · exact ih h

/-- The per-sheet writer propagates the fault message unchanged. -/
theorem saveSheetData_error {fk : Nat} {msg e : String} {batchSize sessionId : Nat}
    {dto : SheetDataDto} {sheetIndex : Nat} {ts : TxState}
    (h : saveSheetData (some (fk, msg)) batchSize sessionId dto sheetIndex ts = .error e) :
    e = msg := by
  simp only [saveSheetData] at h
  split at h
  · rename_i e2 hds
    exact (Except.error.inj h) ▸ doSave_error hds
  · exact writeRowBatches_error h

/-- The sheet loop propagates the fault message unchanged. -/
theorem saveSheetsLoop_error {fk : Nat} {msg e : String} {batchSize sessionId : Nat}
    {sheets : List (String × SheetDataDto)} {idx : Nat} {ts : TxState}
    (h : saveSheetsLoop (some (fk, msg)) batchSize sessionId sheets idx ts = .error e) :
    e = msg := by
  induction sheets generalizing idx ts with
  | nil => simp [saveSheetsLoop] at h
  | cons p rest ih =>
    simp only [saveSheetsLoop] at h
    split at h
    · rename_i e2 hsd
      exact (Except.error.inj h) ▸ saveSheetData_error hsd
    · exact ih h

/-- The whole transaction body propagates the fault message unchanged. -/
theorem runImportTx_error {fk : Nat} {msg e : String} {batchSize sessionId elapsedMs : Nat}
    {u : ExcelUploadDto} {ts : TxState}
    (h : runImportTx (some (fk, msg)) batchSize sessionId elapsedMs u ts = .error e) :
    e = msg := by
  simp only [runImportTx] at h
  split at h
  · rename_i e2 hds
    exact (Except.error.inj h) ▸ doSave_error hds
  · split at h
    · rename_i e2 hsl
      exact (Except.error.inj h) ▸ saveSheetsLoop_error hsl
    · exact doSave_error h

/-- Claim C3 (confirmed): whenever the import fails after the duplicate check
(a fault injected at any `SaveChangesAsync` call of the attempt), the store
returned by `SaveExcelDataAsync` is exactly the pre-call store — rollback
leaves no session, sheet, excluded-sheet, or row record behind — and the
propagated error is the original fault, not a replacement. -/
theorem claim_C3_theorem (σ : Store) (u : ExcelUploadDto) (now : Int)
    (elapsedMs batchSize fk : Nat) (msg e : String) (σf : Store)
    (h : saveExcelData σ u now elapsedMs batchSize (some (fk, msg)) = (.error e, σf)) :
    σf = σ ∧ e = msg := by
  simp only [saveExcelData] at h
  split at h
  · simp at h
  · split at h
    · rename_i e2 hrun
      obtain ⟨h1, h2⟩ := Prod.mk.injEq .. ▸ h
      exact ⟨h2.symm, (Except.error.inj h1).symm ▸ runImportTx_error hrun⟩
    · simp at h

/-- Witness for C3: with the very first `SaveChangesAsync` of an import into
the empty store failing with message `boom`, the call returns that error and
the untouched store. -/
theorem claim_C3_witness :
    exEmptyStore = exEmptyStore ∧ ("boom" : String) = "boom" :=
  claim_C3_theorem exEmptyStore exUpload 0 17 1000 0 "boom" "boom" exEmptyStore rfl

/-! Success-path structure of the transactional import: what an `.ok` outcome
says about the committed store. -/

/-- A successful `SaveChangesAsync` does not alter the tentative store. -/
theorem doSave_ok_state {fault : Option (Nat × String)} {ts ts' : TxState}
    (h : doSave fault ts = .ok ts') : ts'.σ = ts.σ := by
  cases fault with
  | none =>
    simp only [doSave] at h
    cases h
    rfl
  | some fm =>
    obtain ⟨fk, msg⟩ := fm
    simp only [doSave] at h
    split at h
    · cases h
    · cases h
      rfl

/-- The row-batch loop never touches the session table. -/
theorem writeRowBatches_ok_sessions {fault : Option (Nat × String)} {sheetId : Nat}
    {batches : List (List (List (String × Option Json)))} {startIdx : Nat}
    {ts ts' : TxState}
    (h : writeRowBatches fault sheetId batches startIdx ts = .ok ts') :
    ts'.σ.sessions = ts.σ.sessions := by
  induction batches generalizing startIdx ts with
  | nil =>
    simp only [writeRowBatches] at h
    cases h
    rfl
  | cons batch rest ih =>
    simp only [writeRowBatches] at h
    split at h
    · cases h
    · rename_i ts2 hds
      rw [ih h, doSave_ok_state hds]

/-- The per-sheet writer never touches the session table. -/
theorem saveSheetData_ok_sessions {fault : Option (Nat × String)}
    {batchSize sessionId : Nat} {dto : SheetDataDto} {sheetIndex : Nat}
    {ts ts' : TxState}
    (h : saveSheetData fault batchSize sessionId dto sheetIndex ts = .ok ts') :
    ts'.σ.sessions = ts.σ.sessions := by
  simp only [saveSheetData] at h
  split at h
  · cases h
  · rename_i ts2 hds
    rw [writeRowBatches_ok_sessions h, doSave_ok_state hds]

/-- The sheet loop never touches the session table. -/
theorem saveSheetsLoop_ok_sessions {fault : Option (Nat × String)}
    {batchSize sessionId : Nat} {sheets : List (String × SheetDataDto)}
    {idx : Nat} {ts ts' : TxState}
    (h : saveSheetsLoop fault batchSize sessionId sheets idx ts = .ok ts') :
    ts'.σ.sessions = ts.σ.sessions := by
  induction sheets generalizing idx ts with
  | nil =>
    simp only [saveSheetsLoop] at h
    cases h
    rfl
  | cons p rest ih =>
    simp only [saveSheetsLoop] at h
    split at h
    · cases h
    · rename_i ts2 hsd
      rw [ih h, saveSheetData_ok_sessions hsd]

/-- A committed transaction body leaves the session table as the input
session table with the one matching session marked Completed. -/
theorem runImportTx_ok_sessions {fault : Option (Nat × String)}
    {batchSize sessionId elapsedMs : Nat} {u : ExcelUploadDto} {ts ts' : TxState}
    (h : runImportTx fault batchSize sessionId elapsedMs u ts = .ok ts') :
    ts'.σ.sessions = ts.σ.sessions.map (fun s =>
      if s.id = sessionId
      then { s with status := "Completed", processingTimeMs := some elapsedMs }
      else s) := by
  simp only [runImportTx] at h
  split at h
  · cases h
  · rename_i ts1 hds1
    split at h
    · cases h
    · rename_i ts3 hsl
      have h4 := doSave_ok_state h
      have h3 := saveSheetsLoop_ok_sessions hsl
      have h1 := doSave_ok_state hds1
      rw [h4]
      simp only [updateSessionCompleted]
      rw [h3]
      simp only [h1]

/-- With no fault injected, every `SaveChangesAsync` succeeds. -/
theorem doSave_none_ok (ts : TxState) :
    doSave none ts = .ok { ts with calls := ts.calls + 1 } := rfl

/-- With no fault injected, the row-batch loop succeeds. -/
theorem writeRowBatches_none_ok (sheetId : Nat)
    (batches : List (List (List (String × Option Json)))) (startIdx : Nat)
    (ts : TxState) :
    ∃ ts', writeRowBatches none sheetId batches startIdx ts = .ok ts' := by
  induction batches generalizing startIdx ts with
  | nil => exact ⟨ts, rfl⟩
  | cons batch rest ih =>
    simp only [writeRowBatches, doSave_none_ok]
    exact ih _ _

/-- With no fault injected, the per-sheet writer succeeds. -/
theorem saveSheetData_none_ok (batchSize sessionId : Nat) (dto : SheetDataDto)
    (sheetIndex : Nat) (ts : TxState) :
    ∃ ts', saveSheetData none batchSize sessionId dto sheetIndex ts = .ok ts' := by
  simp only [saveSheetData, doSave_none_ok]
  exact writeRowBatches_none_ok _ _ _ _

/-- With no fault injected, the sheet loop succeeds. -/
theorem saveSheetsLoop_none_ok (batchSize sessionId : Nat)
    (sheets : List (String × SheetDataDto)) (idx : Nat) (ts : TxState) :
    ∃ ts', saveSheetsLoop none batchSize sessionId sheets idx ts = .ok ts' := by
  induction sheets generalizing idx ts with
  | nil => exact ⟨ts, rfl⟩
  | cons p rest ih =>
    simp only [saveSheetsLoop]
    obtain ⟨ts2, hsd⟩ := saveSheetData_none_ok batchSize sessionId p.2 idx ts
    rw [hsd]
    exact ih _ _

/-- With no fault injected, the whole transaction body commits. -/
theorem runImportTx_none_ok (batchSize sessionId elapsedMs : Nat)
    (u : ExcelUploadDto) (ts : TxState) :
    ∃ ts', runImportTx none batchSize sessionId elapsedMs u ts = .ok ts' := by
  simp only [runImportTx, doSave_none_ok]
  obtain ⟨ts3, hsl⟩ := saveSheetsLoop_none_ok batchSize sessionId u.sheets 0
    ⟨{ ts.σ with
         nextId := ts.σ.nextId + u.metadata.excludedSheets.length,
         excluded := ts.σ.excluded ++
           exclRecsFrom sessionId ts.σ.nextId u.metadata.excludedSheets },
     ts.calls + 1⟩
  rw [hsl]
  exact ⟨_, rfl⟩

/-- Duplicate short-circuit of lines 148-169: a session with the incoming
digest already stored makes the call return that session's data and leave the
store untouched, whatever fault might be pending (no transaction is opened). -/
theorem save_dup_short_circuit (σ : Store) (u : ExcelUploadDto) (now : Int)
    (elapsedMs batchSize : Nat) (fault : Option (Nat × String)) (s : SessionRec)
    (hfind : σ.sessions.find? (fun t => t.fileHash == CalculateFileHash u) = some s) :
    saveExcelData σ u now elapsedMs batchSize fault = (.ok (dupResponse s), σ) := by
  simp only [saveExcelData]
  rw [hfind]

/-- Claim C2 (confirmed): a stored session whose fingerprint equals the
incoming digest short-circuits the upload — the existing session's id and
stored counts are returned and the store is left unchanged — and hence
uploading identical sheet content twice into a fresh-id store yields the same
session id both times, a store unchanged by the second call, and exactly one
session carrying that fingerprint. -/
theorem claim_C2_theorem :
    (∀ (σ : Store) (u : ExcelUploadDto) (now : Int) (elapsedMs batchSize : Nat)
       (fault : Option (Nat × String)) (s : SessionRec),
       σ.sessions.find? (fun t => t.fileHash == CalculateFileHash u) = some s →
       saveExcelData σ u now elapsedMs batchSize fault = (.ok (dupResponse s), σ)) ∧
    (∀ (σ : Store) (u1 u2 : ExcelUploadDto) (now1 now2 : Int) (ms1 ms2 bs1 bs2 : Nat),
       σ.sessions.find? (fun t => t.fileHash == CalculateFileHash u1) = none →
       (∀ t ∈ σ.sessions, t.id < σ.nextId) →
       u1.sheets = u2.sheets →
       ∃ r1 r2 σ1,
         saveExcelData σ u1 now1 ms1 bs1 none = (.ok r1, σ1) ∧
         saveExcelData σ1 u2 now2 ms2 bs2 none = (.ok r2, σ1) ∧
         r2.sessionId = r1.sessionId ∧
         (σ1.sessions.filter (fun t => t.fileHash == CalculateFileHash u1)).length = 1) := by
  refine ⟨save_dup_short_circuit, ?_⟩
  intro σ u1 u2 now1 now2 ms1 ms2 bs1 bs2 hno hwf hsh
  obtain ⟨ts', hrun⟩ := runImportTx_none_ok bs1 σ.nextId ms1 u1
    ⟨{ σ with
       nextId := σ.nextId + 1,
       sessions := σ.sessions ++
         [{ id := σ.nextId, fileName := u1.fileName,
            fileHash := CalculateFileHash u1, importedBy := u1.importedBy,
            totalSheets := u1.sheets.length + u1.metadata.excludedSheets.length,
            processedSheets := u1.sheets.length,
            excludedSheets := u1.metadata.excludedSheets.length,
            totalRows := (u1.sheets.map (fun p => p.2.data.length)).sum,
            importedAt := now1, status := "Processing",
            processingTimeMs := none }] }, 0⟩
  have hsave1 : saveExcelData σ u1 now1 ms1 bs1 none =
      (.ok { sessionId := σ.nextId,
             message := "Excel data saved successfully",
             processedSheets := u1.sheets.length,
             totalRows := (u1.sheets.map (fun p => p.2.data.length)).sum,
             excludedSheets := u1.metadata.excludedSheets.length,
             processingTimeMs := ms1 }, ts'.σ) := by
    simp only [saveExcelData]
    rw [hno, hrun]
  have hs1 : ts'.σ.sessions = σ.sessions ++
      [{ id := σ.nextId, fileName := u1.fileName,
         fileHash := CalculateFileHash u1, importedBy := u1.importedBy,
         totalSheets := u1.sheets.length + u1.metadata.excludedSheets.length,
         processedSheets := u1.sheets.length,
         excludedSheets := u1.metadata.excludedSheets.length,
         totalRows := (u1.sheets.map (fun p => p.2.data.length)).sum,
         importedAt := now1, status := "Completed",
         processingTimeMs := some ms1 }] := by
    rw [runImportTx_ok_sessions hrun]
    simp only [List.map_append]
    have hold : σ.sessions.map (fun s =>
        if s.id = σ.nextId
        then { s with status := "Completed", processingTimeMs := some ms1 }
        else s) = σ.sessions.map id := by
      apply List.map_congr_left
      intro t ht
      simp [Nat.ne_of_lt (hwf t ht)]
    rw [hold, List.map_id]
    simp
  have hh : CalculateFileHash u2 = CalculateFileHash u1 :=
    hash_from_sheets_only u2 u1 hsh.symm
  have hfind2 : ts'.σ.sessions.find?
      (fun t => t.fileHash == CalculateFileHash u2) = some
      { id := σ.nextId, fileName := u1.fileName,
        fileHash := CalculateFileHash u1, importedBy := u1.importedBy,
        totalSheets := u1.sheets.length + u1.metadata.excludedSheets.length,
        processedSheets := u1.sheets.length,
        excludedSheets := u1.metadata.excludedSheets.length,
        totalRows := (u1.sheets.map (fun p => p.2.data.length)).sum,
        importedAt := now1, status := "Completed",
        processingTimeMs := some ms1 } := by
    rw [hs1]
    simp only [hh, List.find?_append, hno]
    simp [List.find?]
  refine ⟨_, _, ts'.σ, hsave1, save_dup_short_circuit _ _ _ _ _ _ _ hfind2, rfl, ?_⟩
  rw [hs1, List.filter_append]
  have hnil : σ.sessions.filter (fun t => t.fileHash == CalculateFileHash u1) = [] := by
    rw [List.filter_eq_nil_iff]
    exact List.find?_eq_none.mp hno
  rw [hnil]
  simp

/-- A pre-existing session holding the digest of `exUpload`. -/
def exDupSession : SessionRec :=
  { id := 42, fileName := "earlier.xlsx", fileHash := CalculateFileHash exUpload,
    importedBy := none, totalSheets := 2, processedSheets := 1,
    excludedSheets := 1, totalRows := 1, importedAt := 1,
    status := "Completed", processingTimeMs := some 12 }

/-- A store already holding `exDupSession`. -/
def exDupStore : Store :=
  { nextId := 43, sessions := [exDupSession], sheets := [], excluded := [], rows := [] }

/-- Witness for C2: the short-circuit fires against a concrete store holding
the digest, and the double upload of identical content under two file names
into the empty store resolves to one session. -/
theorem claim_C2_witness :
    saveExcelData exDupStore exUpload 3 9 1000 none =
      (.ok (dupResponse exDupSession), exDupStore) ∧
    (∃ r1 r2 σ1,
      saveExcelData exEmptyStore exUpload 0 11 1000 none = (.ok r1, σ1) ∧
      saveExcelData σ1 { exUpload with fileName := "again.xlsx" } 7 4 1000 none =
        (.ok r2, σ1) ∧
      r2.sessionId = r1.sessionId ∧
      (σ1.sessions.filter
        (fun t => t.fileHash == CalculateFileHash exUpload)).length = 1) :=
  ⟨claim_C2_theorem.1 exDupStore exUpload 3 9 1000 none exDupSession
     (by simp [exDupStore, exDupSession, List.find?]),
   claim_C2_theorem.2 exEmptyStore exUpload
     { exUpload with fileName := "again.xlsx" } 0 7 11 4 1000 1000
     (by rfl) (by simp [exEmptyStore]) (by rfl)⟩

/-- Claim C6 (confirmed): whatever the insertion order of the stored records,
the page of search results is sorted by owning-session imported-at
descending, then sheet position index ascending, then row index ascending,
and the returned DTOs are exactly the projection of that sorted page. -/
theorem claim_C6_theorem (σ : Store) (req : SearchRequestDto) :
    List.Pairwise searchOrd (searchPageEntries σ req) ∧
    (searchData σ req).data = (searchPageEntries σ req).map toSearchResultDto := by
  constructor
  · exact List.Pairwise.sublist
      ((List.take_sublist _ _).trans (List.drop_sublist _ _))
      (List.sorted_insertionSort searchOrd _)
  · rfl

/-- The natural-number ceiling characterization of `totalPagesFor`: it is the
least page count whose pages cover all records. -/
theorem totalPagesFor_spec (n s : Nat) (hs : 0 < s) :
    n ≤ totalPagesFor n s * s ∧ ∀ m, n ≤ m * s → totalPagesFor n s ≤ m := by
  constructor
  · unfold totalPagesFor
    have h := Nat.div_add_mod' (n + s - 1) s
    have hr : (n + s - 1) % s < s := Nat.mod_lt _ hs
    omega
  · intro m hm
    unfold totalPagesFor
    have h1 : n + s - 1 ≤ (s - 1) + m * s := by omega
    have h2 : (n + s - 1) / s ≤ ((s - 1) + m * s) / s := Nat.div_le_div_right h1
    have h3 : ((s - 1) + m * s) / s = (s - 1) / s + m := Nat.add_mul_div_right _ _ hs
    have h4 : (s - 1) / s = 0 := Nat.div_eq_of_lt (by omega)
    omega

/-- Claim C7 (confirmed): for both the session listing and the search, the
page metadata reports the total record count, the total page count as the
ceiling of records over page size (characterized as the least covering page
count), and the next/previous flags as `page < totalPages` and `page > 1`. -/
theorem claim_C7_theorem (σ : Store) (p s : Nat) (req : SearchRequestDto)
    (hs : 0 < s) (hreq : 0 < req.pageSize) :
    ((getSessions σ p s).totalRecords = σ.sessions.length ∧
     (getSessions σ p s).totalPages = totalPagesFor σ.sessions.length s ∧
     σ.sessions.length ≤ (getSessions σ p s).totalPages * s ∧
     (∀ m, σ.sessions.length ≤ m * s → (getSessions σ p s).totalPages ≤ m) ∧
     (getSessions σ p s).hasNextPage = decide (p < (getSessions σ p s).totalPages) ∧
     (getSessions σ p s).hasPreviousPage = decide (1 < p)) ∧
    ((searchData σ req).totalRecords = (searchMatches σ req).length ∧
     (searchData σ req).totalPages =
       totalPagesFor (searchMatches σ req).length req.pageSize ∧
     (searchMatches σ req).length ≤ (searchData σ req).totalPages * req.pageSize ∧
     (∀ m, (searchMatches σ req).length ≤ m * req.pageSize →
       (searchData σ req).totalPages ≤ m) ∧
     (searchData σ req).hasNextPage =
       decide (req.pageNumber < (searchData σ req).totalPages) ∧
     (searchData σ req).hasPreviousPage = decide (1 < req.pageNumber)) := by
  obtain ⟨hle, hmin⟩ := totalPagesFor_spec σ.sessions.length s hs
  obtain ⟨hle2, hmin2⟩ := totalPagesFor_spec (searchMatches σ req).length req.pageSize hreq
  exact ⟨⟨rfl, rfl, hle, hmin, rfl, rfl⟩, ⟨rfl, rfl, hle2, hmin2, rfl, rfl⟩⟩

/-- A store holding 105 sessions, for the pagination instance. -/
def exStore105 : Store :=
  { nextId := 200,
    sessions := (List.range 105).map (fun i =>
      { id := i, fileName := "f.xlsx", fileHash := toString i, importedBy := none,
        totalSheets := 0, processedSheets := 0, excludedSheets := 0, totalRows := 0,
        importedAt := (i : Int), status := "Completed", processingTimeMs := none }),
    sheets := [], excluded := [], rows := [] }

/-- Witness for C7: 105 records at page size 20 give 6 pages, a next page
exactly on pages 1-5, and a previous page exactly from page 2 on; the main
theorem is applied at page 2. -/
theorem claim_C7_witness :
    (getSessions exStore105 1 20).totalPages = 6 ∧
    (getSessions exStore105 1 20).hasNextPage = true ∧
    (getSessions exStore105 5 20).hasNextPage = true ∧
    (getSessions exStore105 6 20).hasNextPage = false ∧
    (getSessions exStore105 1 20).hasPreviousPage = false ∧
    (getSessions exStore105 2 20).hasPreviousPage = true ∧
    exStore105.sessions.length ≤ (getSessions exStore105 2 20).totalPages * 20 :=
  ⟨by decide, by decide, by decide, by decide, by decide, by decide,
   (claim_C7_theorem exStore105 2 20
     { searchTerm := "x", sessionId := none, pageNumber := 1, pageSize := 50 }
     (by decide) (by decide)).1.2.2.1⟩

/-! No-null invariant of the write path. -/

/-- Every persisted row payload maps each field to a non-null value. -/
def NoNullStored (σ : Store) : Prop :=
  ∀ r ∈ σ.rows, ∀ p ∈ r.rowData, p.2 ≠ Value.vnull

/-- The function `ConvertJsonElement` never returns C# `null`: JSON null and undefined
become the sentinel string. -/
theorem convertJsonElement_ne_vnull (e : Json) :
    ConvertJsonElement e ≠ Value.vnull := by
  cases e <;> simp [ConvertJsonElement]

/-- The converted row never carries a null value. -/
theorem cjetv_ne_vnull (row : List (String × Option Json)) (p : String × Value)
    (hp : p ∈ ConvertJsonElementsToValues row) : p.2 ≠ Value.vnull := by
  simp only [ConvertJsonElementsToValues, List.mem_map] at hp
  obtain ⟨q, _, hq⟩ := hp
  subst hq
  cases q.2 with
  | none => simp
  | some e => exact convertJsonElement_ne_vnull e

/-- Every record emitted by `rowRecsFrom` carries a converted row payload. -/
theorem rowRecsFrom_rowData {sheetId firstId startIdx : Nat}
    {rows : List (List (String × Option Json))} {r : RowRec}
    (h : r ∈ rowRecsFrom sheetId firstId startIdx rows) :
    ∃ row ∈ rows, r.rowData = ConvertJsonElementsToValues row := by
  induction rows generalizing firstId startIdx with
  | nil => cases h
  | cons row rest ih =>
    cases h with
    | head => exact ⟨row, List.mem_cons_self _ _, rfl⟩
    | tail _ h2 =>
      obtain ⟨row2, hm, he⟩ := ih h2
      exact ⟨row2, List.mem_cons_of_mem _ hm, he⟩

/-- The row-batch loop preserves the no-null row invariant. -/
theorem writeRowBatches_ok_nonull {fault : Option (Nat × String)} {sheetId : Nat}
    {batches : List (List (List (String × Option Json)))} {startIdx : Nat}
    {ts ts' : TxState}
    (h : writeRowBatches fault sheetId batches startIdx ts = .ok ts')
    (hP : NoNullStored ts.σ) : NoNullStored ts'.σ := by
  induction batches generalizing startIdx ts with
  | nil =>
    simp only [writeRowBatches] at h
    cases h
    exact hP
  | cons batch rest ih =>
    simp only [writeRowBatches] at h
    split at h
    · cases h
    · rename_i ts2 hds
      refine ih h ?_
      rw [doSave_ok_state hds]
      intro r hr p hp
      rcases List.mem_append.mp hr with hold | hnew
      · exact hP r hold p hp
      · obtain ⟨row, _, he⟩ := rowRecsFrom_rowData hnew
        exact cjetv_ne_vnull row p (he ▸ hp)

/-- The per-sheet writer preserves the no-null row invariant. -/
theorem saveSheetData_ok_nonull {fault : Option (Nat × String)}
    {batchSize sessionId : Nat} {dto : SheetDataDto} {sheetIndex : Nat}
    {ts ts' : TxState}
    (h : saveSheetData fault batchSize sessionId dto sheetIndex ts = .ok ts')
    (hP : NoNullStored ts.σ) : NoNullStored ts'.σ := by
  simp only [saveSheetData] at h
  split at h
  · cases h
  · rename_i ts2 hds
    refine writeRowBatches_ok_nonull h ?_
    rw [doSave_ok_state hds]
    exact hP

/-- The sheet loop preserves the no-null row invariant. -/
theorem saveSheetsLoop_ok_nonull {fault : Option (Nat × String)}
    {batchSize sessionId : Nat} {sheets : List (String × SheetDataDto)}
    {idx : Nat} {ts ts' : TxState}
    (h : saveSheetsLoop fault batchSize sessionId sheets idx ts = .ok ts')
    (hP : NoNullStored ts.σ) : NoNullStored ts'.σ := by
  induction sheets generalizing idx ts with
  | nil =>
    simp only [saveSheetsLoop] at h
    cases h
    exact hP
  | cons q rest ih =>
    simp only [saveSheetsLoop] at h
    split at h
    · cases h
    · rename_i ts2 hsd
      exact ih h (saveSheetData_ok_nonull hsd hP)

/-- The committed transaction body preserves the no-null row invariant. -/
theorem runImportTx_ok_nonull {fault : Option (Nat × String)}
    {batchSize sessionId elapsedMs : Nat} {u : ExcelUploadDto} {ts ts' : TxState}
    (h : runImportTx fault batchSize sessionId elapsedMs u ts = .ok ts')
    (hP : NoNullStored ts.σ) : NoNullStored ts'.σ := by
  simp only [runImportTx] at h
  split at h
  · cases h
  · rename_i ts1 hds1
    split at h
    · cases h
    · rename_i ts3 hsl
      have h4 := doSave_ok_state h
      intro r hr
      have hP3 : NoNullStored ts3.σ := by
        refine saveSheetsLoop_ok_nonull hsl ?_
        have h1 := doSave_ok_state hds1
        intro r2 hr2
        exact hP r2 (by simpa [h1] using hr2)
      rw [h4] at hr
      exact hP3 r hr

/-- Claim C9 (confirmed): the write path replaces C# null and JSON
null/undefined field values with the sentinel `"N/A"`, so no row record ever
persisted by `SaveExcelDataAsync` maps a field to null, and the no-null store
invariant is preserved by every call outcome. -/
theorem claim_C9_theorem :
    (∀ (row : List (String × Option Json)) (p : String × Value),
       p ∈ ConvertJsonElementsToValues row → p.2 ≠ Value.vnull) ∧
    (∀ (row : List (String × Option Json)) (k : String),
       (k, (none : Option Json)) ∈ row →
       (k, Value.vstr "N/A") ∈ ConvertJsonElementsToValues row) ∧
    (∀ (σ : Store) (u : ExcelUploadDto) (now : Int) (elapsedMs batchSize : Nat)
       (fault : Option (Nat × String)), NoNullStored σ →
       NoNullStored (saveExcelData σ u now elapsedMs batchSize fault).2) := by
  refine ⟨cjetv_ne_vnull, ?_, ?_⟩
  · intro row k hk
    simp only [ConvertJsonElementsToValues, List.mem_map]
    exact ⟨(k, none), hk, rfl⟩
  · intro σ u now elapsedMs batchSize fault hP
    simp only [saveExcelData]
    split
    · exact hP
    · split
      · exact hP
      · rename_i ts hrun
        exact runImportTx_ok_nonull hrun hP

/-- Witness for C9: the store produced by a concrete successful upload whose
row contains a C# null field satisfies the no-null invariant. -/
theorem claim_C9_witness :
    NoNullStored (saveExcelData exEmptyStore
      { exUpload with sheets := [("Data",
          { sheetName := "Data", headers := ["Name"],
            data := [[("Name", none)]] })] } 0 1 1000 none).2 :=
  claim_C9_theorem.2.2 exEmptyStore _ 0 1 1000 none (by intro r hr p hp; cases hr)

/-! Header decapitalization on the read path. -/

/-- Successful selection: every output element is the image of some input
element. -/
theorem selectAll_mem {α β : Type} {f : α → Option β} {l : List α} {bs : List β}
    (h : selectAll f l = some bs) {b : β} (hb : b ∈ bs) :
    ∃ a ∈ l, f a = some b := by
  induction l generalizing bs with
  | nil =>
    simp only [selectAll, Option.some.injEq] at h
    subst h
    cases hb
  | cons a t ih =>
    simp only [selectAll] at h
    cases hfa : f a with
    | none => rw [hfa] at h; cases h
    | some c =>
      rw [hfa] at h
      cases hst : selectAll f t with
      | none => rw [hst] at h; cases h
      | some cs =>
        rw [hst] at h
        simp only [Option.map_some', Option.some.injEq] at h
        subst h
        cases hb with
        | head => exact ⟨a, List.mem_cons_self _ _, hfa⟩
        | tail _ h2 =>
          obtain ⟨a2, hm, he⟩ := ih hst h2
          exact ⟨a2, List.mem_cons_of_mem _ hm, he⟩

/-- The selection is `none` exactly when some element throws. -/
theorem selectAll_eq_none_iff {α β : Type} {f : α → Option β} {l : List α} :
    selectAll f l = none ↔ ∃ a ∈ l, f a = none := by
  constructor
  · intro h
    induction l with
    | nil => cases h
    | cons a t ih =>
      simp only [selectAll] at h
      cases hfa : f a with
      | none => exact ⟨a, List.mem_cons_self _ _, hfa⟩
      | some c =>
        rw [hfa] at h
        cases hst : selectAll f t with
        | none =>
          obtain ⟨a2, hm, he⟩ := ih hst
          exact ⟨a2, List.mem_cons_of_mem _ hm, he⟩
        | some cs => rw [hst] at h; cases h
  · intro ⟨a, hm, hfa⟩
    exact selectAll_of_mem_none hm hfa

/-- The transform throws exactly on the empty header string. -/
theorem decapitalizeHeader_eq_none_iff (h : String) :
    decapitalizeHeader h = none ↔ h = "" := by
  obtain ⟨data⟩ := h
  cases data with
  | nil =>
    constructor
    · intro _; decide
    · intro _; rfl
  | cons c cs =>
    constructor
    · intro hx
      simp [decapitalizeHeader] at hx
    · intro hx
      have h0 : (String.mk (c :: cs)).data = "".data := by rw [hx]
      have h1 : ("" : String).data = [] := rfl
      rw [h1] at h0
      cases h0

/-- Claim C8 (confirmed): every header list returned by the session-detail or
sheet-detail reads is the stored header list transformed elementwise by
lowering the first character and keeping the rest, which is exactly what
`decapitalizeHeader` does on a non-empty string. -/
theorem claim_C8_theorem :
    (∀ (c : Char) (cs : List Char),
       decapitalizeHeader (String.mk (c :: cs)) =
         some (String.mk (Char.toLower c :: cs))) ∧
    (∀ (σ : Store) (sid : Nat) (dto : SessionDataDto),
       getSessionData σ sid = .ok (some dto) →
       ∀ ss ∈ dto.sheets, ∃ sh, sh ∈ σ.sheets ∧ sh.sessionId = sid ∧
         ss.id = sh.id ∧ selectAll decapitalizeHeader sh.headers = some ss.headers) ∧
    (∀ (σ : Store) (shid : Nat) (dto : SheetDetailDto),
       getSheetDetail σ shid = .ok (some dto) →
       ∃ sh, sh ∈ σ.sheets ∧ sh.id = shid ∧
         selectAll decapitalizeHeader sh.headers = some dto.headers) := by
  refine ⟨fun c cs => rfl, ?_, ?_⟩
  · intro σ sid dto h ss hss
    simp only [getSessionData] at h
    split at h
    · simp at h
    · rename_i s hfind
      split at h
      · cases h
      · rename_i summaries hsel
        simp only [Except.ok.injEq, Option.some.injEq] at h
        subst h
        obtain ⟨sh, hshmem, hfsh⟩ := selectAll_mem hsel hss
        cases hhs : selectAll decapitalizeHeader sh.headers with
        | none => rw [hhs] at hfsh; cases hfsh
        | some hs =>
          rw [hhs] at hfsh
          simp only [Option.map_some', Option.some.injEq] at hfsh
          subst hfsh
          have hmem2 : sh ∈ σ.sheets.filter (fun t => t.sessionId == sid) :=
            (List.perm_insertionSort _ _).mem_iff.mp hshmem
          obtain ⟨hm, hq⟩ := List.mem_filter.mp hmem2
          exact ⟨sh, hm, by simpa using hq, rfl, hhs⟩
  · intro σ shid dto h
    simp only [getSheetDetail] at h
    split at h
    · simp at h
    · rename_i sh hfind
      split at h
      · cases h
      · rename_i hs hhs
        simp only [Except.ok.injEq, Option.some.injEq] at h
        subst h
        have hid := List.find?_some hfind
        simp only [beq_iff_eq] at hid
        exact ⟨sh, List.mem_of_find?_eq_some hfind, hid, hhs⟩

/-- Session fixture with well-formed headers. -/
def exGoodSession : SessionRec :=
  { id := 7, fileName := "g.xlsx", fileHash := "H", importedBy := none,
    totalSheets := 1, processedSheets := 1, excludedSheets := 0, totalRows := 1,
    importedAt := 4, status := "Completed", processingTimeMs := some 3 }

/-- Sheet fixture with headers `["Name", "Date Of Birth"]`. -/
def exGoodSheet : SheetRec :=
  { id := 8, sessionId := 7, sheetName := "Data", sheetIndex := 0,
    rowCount := 1, columnCount := 2, headers := ["Name", "Date Of Birth"] }

/-- Store fixture holding the good session and sheet. -/
def exGoodStore : Store :=
  { nextId := 10, sessions := [exGoodSession], sheets := [exGoodSheet],
    excluded := [],
    rows := [{ id := 9, sheetId := 8, rowIndex := 0,
               rowData := [("Name", .vstr "Acme")] }] }

/-- Witness for C8: on the concrete store the session-detail read returns the
sheet with headers `["name", "date Of Birth"]`, tied back to the stored sheet
by the main theorem. -/
theorem claim_C8_witness :
    decapitalizeHeader (String.mk ['N', 'a', 'm', 'e']) =
      some (String.mk ['n', 'a', 'm', 'e']) ∧
    ∃ sh, sh ∈ exGoodStore.sheets ∧ sh.sessionId = 7 ∧
      (8 : Nat) = sh.id ∧
      selectAll decapitalizeHeader sh.headers = some ["name", "date Of Birth"] := by
  constructor
  · exact claim_C8_theorem.1 'N' ['a', 'm', 'e']
  · have happ := claim_C8_theorem.2.1 exGoodStore 7
      { id := 7, fileName := "g.xlsx", importedAt := 4, totalSheets := 1,
        processedSheets := 1, excludedSheets := 0, totalRows := 1,
        status := "Completed",
        sheets := [{ id := 8, sheetName := "Data", sheetIndex := 0,
                     rowCount := 1, columnCount := 2,
                     headers := ["name", "date Of Birth"] }],
        excludedSheetsList := [] } rfl
      { id := 8, sheetName := "Data", sheetIndex := 0, rowCount := 1,
        columnCount := 2, headers := ["name", "date Of Birth"] }
      (by simp)
    exact happ

/-- Claim C10 (confirmed): the detail reads are total exactly when every
stored header of the addressed records is non-empty; one empty header string
makes the unguarded `h[0]` indexing throw out of the whole read instead of
degrading that one record. -/
theorem claim_C10_theorem :
    (∀ (σ : Store) (sid : Nat) (s : SessionRec),
       σ.sessions.find? (fun t => t.id == sid) = some s →
       ((∀ sh ∈ σ.sheets, sh.sessionId = sid → "" ∉ sh.headers) →
         ∃ dto, getSessionData σ sid = .ok (some dto)) ∧
       ((∃ sh, sh ∈ σ.sheets ∧ sh.sessionId = sid ∧ "" ∈ sh.headers) →
         getSessionData σ sid = .error "IndexOutOfRangeException")) ∧
    (∀ (σ : Store) (shid : Nat) (sh : SheetRec),
       σ.sheets.find? (fun t => t.id == shid) = some sh →
       ("" ∉ sh.headers → ∃ dto, getSheetDetail σ shid = .ok (some dto)) ∧
       ("" ∈ sh.headers → getSheetDetail σ shid = .error "IndexOutOfRangeException")) := by
  constructor
  · intro σ sid s hfind
    constructor
    · intro hclean
      simp only [getSessionData, hfind]
      cases hsel : selectAll (fun sh =>
          (selectAll decapitalizeHeader sh.headers).map (fun hs =>
            ({ id := sh.id, sheetName := sh.sheetName, sheetIndex := sh.sheetIndex,
               rowCount := sh.rowCount, columnCount := sh.columnCount,
               headers := hs } : SheetSummaryDto)))
          (List.insertionSort (fun a b => a.sheetIndex ≤ b.sheetIndex)
            (σ.sheets.filter (fun sh => sh.sessionId == sid))) with
      | none =>
        exfalso
        obtain ⟨sh, hm, hf⟩ := selectAll_eq_none_iff.mp hsel
        have hdn : selectAll decapitalizeHeader sh.headers = none := by
          cases hx : selectAll decapitalizeHeader sh.headers with
          | none => rfl
          | some hs => rw [hx] at hf; cases hf
        obtain ⟨hstr, hmm, hdec⟩ := selectAll_eq_none_iff.mp hdn
        have hempty : hstr = "" := (decapitalizeHeader_eq_none_iff hstr).mp hdec
        subst hempty
        have hmem2 : sh ∈ σ.sheets.filter (fun t => t.sessionId == sid) :=
          (List.perm_insertionSort _ _).mem_iff.mp hm
        obtain ⟨hm2, hq⟩ := List.mem_filter.mp hmem2
        exact hclean sh hm2 (by simpa using hq) hmm
      | some summaries =>
        exact ⟨_, rfl⟩
    · intro ⟨sh, hm, hsid, hhead⟩
      simp only [getSessionData, hfind]
      have hshs : sh ∈ List.insertionSort (fun a b => a.sheetIndex ≤ b.sheetIndex)
          (σ.sheets.filter (fun t => t.sessionId == sid)) :=
        (List.perm_insertionSort _ _).mem_iff.mpr
          (List.mem_filter.mpr ⟨hm, by simp [hsid]⟩)
      have hdn : selectAll decapitalizeHeader sh.headers = none :=
        selectAll_of_mem_none hhead ((decapitalizeHeader_eq_none_iff "").mpr rfl)
      rw [selectAll_of_mem_none hshs (by simp [hdn])]
  · intro σ shid sh hfind
    constructor
    · intro hclean
      simp only [getSheetDetail, hfind]
      cases hsel : selectAll decapitalizeHeader sh.headers with
      | none =>
        exfalso
        obtain ⟨hstr, hmm, hdec⟩ := selectAll_eq_none_iff.mp hsel
        have hempty : hstr = "" := (decapitalizeHeader_eq_none_iff hstr).mp hdec
        subst hempty
        exact hclean hmm
      | some hs =>
        exact ⟨_, rfl⟩
    · intro hhead
      simp only [getSheetDetail, hfind]
      rw [selectAll_of_mem_none hhead ((decapitalizeHeader_eq_none_iff "").mpr rfl)]

/-- Store fixture whose single sheet stores an empty header string. -/
def exBadStore : Store :=
  { nextId := 10, sessions := [exGoodSession],
    sheets := [{ id := 8, sessionId := 7, sheetName := "Data", sheetIndex := 0,
                 rowCount := 0, columnCount := 1, headers := [""] }],
    excluded := [], rows := [] }

/-- Witness for C10: with one empty header stored, both detail reads fault
with the indexing exception; with well-formed headers both succeed. -/
theorem claim_C10_witness :
    getSessionData exBadStore 7 = .error "IndexOutOfRangeException" ∧
    getSheetDetail exBadStore 8 = .error "IndexOutOfRangeException" ∧
    (∃ dto, getSessionData exGoodStore 7 = .ok (some dto)) ∧
    (∃ dto, getSheetDetail exGoodStore 8 = .ok (some dto)) :=
  ⟨(claim_C10_theorem.1 exBadStore 7 exGoodSession rfl).2
     ⟨{ id := 8, sessionId := 7, sheetName := "Data", sheetIndex := 0,
        rowCount := 0, columnCount := 1, headers := [""] },
      by simp [exBadStore], rfl, by simp⟩,
   (claim_C10_theorem.2 exBadStore 8
     { id := 8, sessionId := 7, sheetName := "Data", sheetIndex := 0,
       rowCount := 0, columnCount := 1, headers := [""] } rfl).2 (by simp),
   (claim_C10_theorem.1 exGoodStore 7 exGoodSession rfl).1
     (by intro sh hm hs; simp [exGoodStore, exGoodSheet] at hm; subst hm; simp [exGoodSheet]),
   (claim_C10_theorem.2 exGoodStore 8 exGoodSheet rfl).1
     (by simp [exGoodSheet])⟩

end ExcelProc
